import Mathlib

/-!
# go-winfo-resizer: the resize controller, embedded and verified

A shallow embedding of `controllers/resizer_controller.go` and of the library
functions it calls, followed by theorems about the cache key, the identifier
resolver, request validation, the crop geometry and the disk cache.

Conventions of the embedding.

* A Go `string` is a Lean `String`; a `[]byte` is a list of naturals below 256.
* Go's `int` is the unbounded `Int`: image dimensions are bounded by
  addressable memory, so no geometry value here comes near `2 ^ 63`.  The one
  place where the machine range is observable, the range error of
  `strconv.Atoi`, is modelled explicitly.
* `float64` quotients of two integers are exact rationals (with the IEEE
  results for a zero divisor); the rounding error of a double is not modelled,
  so a dimension that `Resize` computes can be one more than the library's.
  The theorems on the crop and no-crop paths state only a lower bound on such a
  dimension, never its value.
* The pixel resampler, the image codecs and `filepath.Join` are parameters
  (`Lib`): the controller is verified for every choice of them.
* The file system and the remote store are explicit state: `Disk` and
  `Remote`.  A handler run returns the response, the disk afterwards and the
  trace of I/O events it performed.
-/

namespace Resizer

/-! ## Strings and numbers -/

/-- A byte slice. -/
abbrev Bytes := List Nat

/-- The byte `'0' + d` written by the integer formatter. -/
def digitByte (d : Nat) : Char := Char.ofNat (48 + d)

/-- The digit loop of `strconv`/`fmt` integer formatting: while `u >= 10` the
digit `u % 10` is written in front of what was written so far and `u` becomes
`u / 10`; the last digit `u < 10` is written in front.  `fuel` bounds the number
of iterations. -/
def fmtBits : Nat → Nat → List Char → List Char
  | 0, _, acc => acc
  | fuel + 1, u, acc =>
    if u < 10 then digitByte u :: acc
    else fmtBits fuel (u / 10) (digitByte (u % 10) :: acc)

/-- Decimal digits of a natural number, most significant first. -/
def fmtNat (u : Nat) : List Char := fmtBits (u + 1) u []

/-- The verb `%d` of `fmt.Sprintf` applied to an `int`. -/
def fmtInteger (v : Int) : String :=
  if v < 0 then String.mk ('-' :: fmtNat v.natAbs) else String.mk (fmtNat v.natAbs)

/-- The digit loop of `strconv.Atoi`: `n = n*10 + (ch - '0')`, a syntax error
at the first byte that is not a digit. -/
def parseDigits : List Char → Nat → Option Nat
  | [], n => some n
  | ch :: rest, n =>
    if ch.toNat < 48 ∨ 57 < ch.toNat then none
    else parseDigits rest (n * 10 + (ch.toNat - 48))

/-- Width of the machine `int`. -/
def intSize : Nat := 64

/-- The unsigned part of `strconv.ParseInt`: at least one digit, and digits
only. -/
def parseUint (ds : List Char) : Option Nat :=
  match ds with
  | [] => none
  | _ :: _ => parseDigits ds 0

/-- The function `strconv.Atoi`: an optional sign, then at least one decimal
digit and nothing else; a value outside the machine `int` is a range error.
`none` stands for a non-nil error (the caller looks at nothing else then). -/
def Atoi (s : String) : Option Int :=
  match s.data with
  | [] => none
  | c :: cs =>
    match parseUint (if c = '-' ∨ c = '+' then cs else c :: cs) with
    | none => none
    | some un =>
      if c = '-' then
        if un ≤ 2 ^ (intSize - 1) then some (-(un : Int)) else none
      else
        if un < 2 ^ (intSize - 1) then some (un : Int) else none

/-- A decimal digit, as a byte. -/
def isDigitChar (c : Char) : Prop := 48 ≤ c.toNat ∧ c.toNat ≤ 57

instance (c : Char) : Decidable (isDigitChar c) := by
  unfold isDigitChar
  infer_instance

/-- Conversion `string(b)` of a byte slice. -/
def bytesToString (b : Bytes) : String := String.mk (b.map Char.ofNat)

/-- Conversion `[]byte(s)` of a string (UTF-8). -/
def stringToBytes (s : String) : Bytes :=
  s.data.flatMap fun c => (String.utf8EncodeChar c).map UInt8.toNat

/-! ## encoding/base64, `URLEncoding` -/

/-- The URL-safe alphabet. -/
def encodeURL : String := "ABCDEFGHIJKLMNOPQRSTUVWXYZabcdefghijklmnopqrstuvwxyz0123456789-_"

/-- The padding character of `URLEncoding` (`StdPadding`). -/
def padChar : Char := '='

/-- Table `enc.encode`: the character of a six-bit value. -/
def encodeChar (v : Nat) : Char := encodeURL.data.getD v 'A'

/-- Table `enc.decodeMap`: the six-bit value of an alphabet character, `0xff`
for every other byte. -/
def decodeMap (c : Char) : Nat :=
  let i := encodeURL.data.indexOf c
  if i < 64 then i else 255

/-- The loops `for si < len(src) && (src[si] == '\n' || src[si] == '\r')`. -/
def skipNewlines : List Char → List Char
  | [] => []
  | c :: rest => if c = '\n' ∨ c = '\r' then skipNewlines rest else c :: rest

/-- The tail of `decodeQuantum`: the `dlen` six-bit values of `dbuf` (missing
ones are zero) are packed into 24 bits and the first `dlen - 1` bytes are
written. -/
def quantumBytes (dbuf : List Nat) : Bytes :=
  let val := dbuf.getD 0 0 <<< 18 ||| dbuf.getD 1 0 <<< 12 ||| dbuf.getD 2 0 <<< 6 ||| dbuf.getD 3 0
  [(val >>> 16) % 256, (val >>> 8) % 256, val % 256].take (dbuf.length - 1)

/-- The decoding loop of `Encoding.Decode` for a padded, non-strict encoding:
`decodeQuantum` is run until the input is used up.  `dbuf` holds the six-bit
values read so far in the current quantum.  Line breaks are skipped, input
ending inside a quantum is corrupt, and `=` must complete the quantum and end
the input.  (The 8- and 4-byte fast paths of `Decode` compute the same
function.)  `none` stands for a non-nil error. -/
def decodeFrom (dbuf : List Nat) : List Char → Option Bytes
  | [] => if dbuf.length = 0 then some [] else none
  | c :: rest =>
    if decodeMap c ≠ 255 then
      if dbuf.length = 3 then
        (decodeFrom [] rest).map fun out => quantumBytes (dbuf ++ [decodeMap c]) ++ out
      else decodeFrom (dbuf ++ [decodeMap c]) rest
    else if c = '\n' ∨ c = '\r' then decodeFrom dbuf rest
    else if c ≠ padChar then none
    else
      match dbuf.length with
      | 2 =>
        match skipNewlines rest with
        | [] => none
        | c2 :: rest2 =>
          if c2 ≠ padChar then none
          else if (skipNewlines rest2).length = 0 then some (quantumBytes dbuf) else none
      | 3 => if (skipNewlines rest).length = 0 then some (quantumBytes dbuf) else none
      | _ => none

/-- The call `base64.URLEncoding.DecodeString(s)`. -/
def DecodeString (s : String) : Option Bytes := decodeFrom [] s.data

/-- The encoder `Encoding.Encode` of the URL-safe alphabet: three bytes give
four characters; a rest of one or two bytes gives two or three characters,
followed by `=` up to four when `pad` is set (`URLEncoding`) and by nothing
otherwise (`RawURLEncoding`). -/
def encodeBytes (pad : Bool) : Bytes → List Char
  | a :: b :: c :: rest =>
    let val := a <<< 16 ||| b <<< 8 ||| c
    encodeChar (val >>> 18 &&& 63) :: encodeChar (val >>> 12 &&& 63)
      :: encodeChar (val >>> 6 &&& 63) :: encodeChar (val &&& 63) :: encodeBytes pad rest
  | [a, b] =>
    let val := a <<< 16 ||| b <<< 8
    [encodeChar (val >>> 18 &&& 63), encodeChar (val >>> 12 &&& 63),
      encodeChar (val >>> 6 &&& 63)] ++ (if pad then [padChar] else [])
  | [a] =>
    let val := a <<< 16
    [encodeChar (val >>> 18 &&& 63), encodeChar (val >>> 12 &&& 63)]
      ++ (if pad then [padChar, padChar] else [])
  | [] => []

/-- The call `base64.URLEncoding.EncodeToString(p)`. -/
def EncodeToString (p : Bytes) : String := String.mk (encodeBytes true p)

/-- The call `base64.RawURLEncoding.EncodeToString(p)`: the same without padding. -/
def RawEncodeToString (p : Bytes) : String := String.mk (encodeBytes false p)

/-! ## image, image/draw -/

/-- The type `image.Point`. -/
structure Point where
  X : Int
  Y : Int
  deriving DecidableEq, Repr

/-- The type `image.Rectangle`: the points with `Min.X <= x < Max.X` and
`Min.Y <= y < Max.Y`. -/
structure Rectangle where
  Min : Point
  Max : Point
  deriving DecidableEq, Repr

/-- The method `Rectangle.Dx`. -/
def Rectangle.Dx (r : Rectangle) : Int := r.Max.X - r.Min.X

/-- The method `Rectangle.Dy`. -/
def Rectangle.Dy (r : Rectangle) : Int := r.Max.Y - r.Min.Y

/-- The method `Rectangle.Empty`. -/
def Rectangle.Empty (r : Rectangle) : Bool :=
  decide (r.Min.X ≥ r.Max.X) || decide (r.Min.Y ≥ r.Max.Y)

/-- The method `Rectangle.In`: every point of `r` is in `s`. -/
def Rectangle.In (r s : Rectangle) : Bool :=
  if r.Empty then true
  else decide (s.Min.X ≤ r.Min.X) && decide (r.Max.X ≤ s.Max.X)
    && decide (s.Min.Y ≤ r.Min.Y) && decide (r.Max.Y ≤ s.Max.Y)

/-- Whether the point `(x, y)` is in `r` (`Point.In`). -/
def Rectangle.Contains (r : Rectangle) (x y : Int) : Bool :=
  decide (r.Min.X ≤ x) && decide (x < r.Max.X) && decide (r.Min.Y ≤ y) && decide (y < r.Max.Y)

/-- The function `image.Rect`: the corners are put in order. -/
def Rect (x0 y0 x1 y1 : Int) : Rectangle :=
  let (x0, x1) := if x0 > x1 then (x1, x0) else (x0, x1)
  let (y0, y1) := if y0 > y1 then (y1, y0) else (y0, y1)
  ⟨⟨x0, y0⟩, ⟨x1, y1⟩⟩

/-- The type `color.RGBA`. -/
structure RGBA where
  R : Nat
  G : Nat
  B : Nat
  A : Nat
  deriving DecidableEq, Repr

/-- The interface `image.Image`: the bounds and the colour at each point. -/
structure Image where
  Bounds : Rectangle
  At : Int → Int → RGBA

/-- The function `image.NewRGBA`: transparent black on the rectangle `r`. -/
def NewRGBA (r : Rectangle) : Image := ⟨r, fun _ _ => ⟨0, 0, 0, 0⟩⟩

/-- The call `draw.Draw(dst, r, src, sp, draw.Src)`: `r` is clipped to the
bounds of `dst` and to the part whose source point lies in the bounds of `src`;
on what is left, the pixel at `p` becomes the source pixel at `p - r.Min + sp`. -/
def Draw (dst : Image) (r : Rectangle) (src : Image) (sp : Point) : Image :=
  { Bounds := dst.Bounds
    At := fun x y =>
      if r.Contains x y && dst.Bounds.Contains x y
          && src.Bounds.Contains (x - r.Min.X + sp.X) (y - r.Min.Y + sp.Y) then
        src.At (x - r.Min.X + sp.X) (y - r.Min.Y + sp.Y)
      else dst.At x y }

/-! ## github.com/nfnt/resize -/

/-- A resampling filter (`resize.InterpolationFunction` with the pixel loops of
the library): the colour of the output pixel `(x, y)` when `img` is scaled to
`width` by `height`. -/
abbrev InterpolationFunction := Image → Nat → Nat → Int → Int → RGBA

/-- The function `calcFactors` of the resize library: the scaling factors from
old and new dimensions; a new dimension of 0 takes the factor of the other. -/
def calcFactors (width height : Nat) (oldWidth oldHeight : ℚ) : ℚ × ℚ :=
  if width = 0 then
    if height = 0 then (1, 1) else (oldHeight / height, oldHeight / height)
  else
    (oldWidth / width, if height = 0 then oldWidth / width else oldHeight / height)

/-- The function `resize.Resize(width, height, img, interp)`.  A dimension given
as 0 is computed as `uint(0.7 + old/scale)`, so that the aspect ratio is kept.
The input is returned unchanged when it has no pixels or already has the new
size (both exits of the library return `img`, whatever the computed size);
otherwise the result is a new image on `Rect(0, 0, width, height)`.

The library evaluates `0.7 + old/scale` in `float64`; here it is the exact
rational.  Where the exact scaled value has fractional part 3/10 the double
can fall just below the next integer, and the library's dimension is then one
less than this one (1000 by 701 scaled to width 300: 210 there, 211 here).
The theorems on `resizeAndCropImage` use of a computed dimension only that it
is not below the scaled value rounded down, which holds of both. -/
def Resize (width height : Nat) (img : Image) (interp : InterpolationFunction) : Image :=
  if img.Bounds.Dx ≤ 0 ∨ img.Bounds.Dy ≤ 0 then img
  else
    let scale := calcFactors width height img.Bounds.Dx img.Bounds.Dy
    let width := if width = 0 then ⌊(7 / 10 : ℚ) + img.Bounds.Dx / scale.1⌋.toNat else width
    let height := if height = 0 then ⌊(7 / 10 : ℚ) + img.Bounds.Dy / scale.2⌋.toNat else height
    if (width : Int) = img.Bounds.Dx ∧ (height : Int) = img.Bounds.Dy then img
    else ⟨Rect 0 0 width height, interp img width height⟩

/-! ## controllers/resizer_controller.go -/

/-- A `float64`: not-a-number, an infinity, or a finite value. -/
inductive F64 where
  | nan
  | inf (negative : Bool)
  | fin (q : ℚ)

/-- The quotient `float64(a) / float64(b)` of two integers. -/
def F64.quot (a b : Int) : F64 :=
  if b = 0 then (if a = 0 then .nan else .inf (decide (a < 0))) else .fin ((a : ℚ) / b)

/-- The comparison `x > y` of two `float64`. -/
def F64.gt : F64 → F64 → Bool
  | .nan, _ => false
  | _, .nan => false
  | .inf n, .inf m => !n && m
  | .inf n, .fin _ => !n
  | .fin _, .inf m => m
  | .fin p, .fin q => decide (q < p)

/-- The conversion `uint(x)` of an `int` that is not negative. -/
def uint (x : Int) : Nat := x.toNat

/-- The function `croppedImage`: a new image on the rectangle
`[x, x+width) x [y, y+height)` holding that part of `src`. -/
def croppedImage (src : Image) (x y width height : Int) : Image :=
  let rect := Rect x y (x + width) (y + height)
  let cropped := NewRGBA rect
  Draw cropped rect src ⟨x, y⟩

/-- The image handed to `croppedImage` in the crop path of
`resizeAndCropImage`: the source scaled to the target height when it is
relatively wider than the target, and to the target width otherwise. -/
def cropResized (Lanczos3 : InterpolationFunction) (img : Image) (width height : Int) : Image :=
  let originalRatio := F64.quot img.Bounds.Dx img.Bounds.Dy
  let requiredRatio := F64.quot width height
  if originalRatio.gt requiredRatio then Resize 0 (uint height) img Lanczos3
  else Resize (uint width) 0 img Lanczos3

/-- The offset `startX` of the crop path (Go's `/` truncates). -/
def cropStartX (resized : Image) (width : Int) : Int := (resized.Bounds.Dx - width).tdiv 2

/-- The offset `startY` of the crop path. -/
def cropStartY (resized : Image) (height : Int) : Int := (resized.Bounds.Dy - height).tdiv 2

/-- The function `resizeAndCropImage`. -/
def resizeAndCropImage (Lanczos3 : InterpolationFunction) (img : Image) (width height : Int)
    (crop : Bool) : Image :=
  if crop then
    let resized := cropResized Lanczos3 img width height
    let startX := cropStartX resized width
    let startY := cropStartY resized height
    croppedImage resized startX startY width height
  else
    Resize (uint width) 0 img Lanczos3

/-- Result of `http.Get(url)`: a transport error, or a response with its
status code, declared content type and body. -/
inductive GetResult where
  | failed
  | response (StatusCode : Nat) (ContentType : String) (Body : Bytes)

/-- The remote store: what `http.Get` returns for each address. -/
abbrev Remote := String → GetResult

/-- The library functions whose results are left open: the three decoders,
`webp.Encode` (with its quality option), the filter `resize.Lanczos3` and
`filepath.Join`.  A decoder or the encoder returning `none` is a non-nil error. -/
structure Lib where
  jpegDecode : Bytes → Option Image
  pngDecode : Bytes → Option Image
  webpDecode : Bytes → Option Image
  webpEncode : Image → Int → Option Bytes
  Lanczos3 : InterpolationFunction
  Join : String → String → String

/-- The file system as the controller sees it: the readable files with their
contents (the first entry of a path counts), and the paths at which creating
the directory or writing the file fails. -/
structure Disk where
  files : List (String × Bytes)
  denied : List String
  deriving DecidableEq, Repr

/-- The call `os.ReadFile(path)`; `none` is a non-nil error. -/
def Disk.ReadFile (d : Disk) (path : String) : Option Bytes := d.files.lookup path

/-- The function `saveToDisk`: `os.MkdirAll` of the directory, then
`os.WriteFile`.  Returns the disk afterwards and whether the error is nil; a
failed write leaves the disk as it was. -/
def saveToDisk (d : Disk) (filePath : String) (data : Bytes) : Disk × Bool :=
  if filePath ∈ d.denied then (d, false)
  else ({ d with files := (filePath, data) :: d.files }, true)

/-- An I/O operation performed by the handler: reading a cache file, fetching
an address, and saving a cache file, with whether `saveToDisk` returned a nil
error (a non-nil one is only logged). -/
inductive Event where
  | ReadFile (path : String)
  | Get (url : String)
  | WriteFile (path : String) (ok : Bool)
  deriving DecidableEq, Repr

/-- What the handler wrote to the `http.ResponseWriter`. -/
structure Response where
  StatusCode : Nat
  Header : List (String × String)
  Body : Bytes
  deriving DecidableEq, Repr

/-- A finished handler run. -/
structure Outcome where
  response : Response
  disk : Disk
  trace : List Event
  deriving DecidableEq, Repr

/-- The call `http.Error(w, msg, code)`. -/
def httpError (msg : String) (code : Nat) : Response :=
  { StatusCode := code
    Header := [("Content-Type", "text/plain; charset=utf-8"), ("X-Content-Type-Options", "nosniff")]
    Body := stringToBytes (msg ++ "\n") }

/-- The constant `cacheDir`. -/
def cacheDir : String := "./cache"

/-- The fixed base address of the remote store. -/
def baseURL : String := "https://brotemedia.sfo3.cdn.digitaloceanspaces.com/winfo/"

/-- The function `downloadAndDecodeImage`, on the result of `http.Get`. -/
def downloadAndDecodeImage (lib : Lib) (remote : Remote) (url : String) : Option Image :=
  match remote url with
  | .failed => none
  | .response StatusCode contentType body =>
    if StatusCode ≠ 200 then none
    else if contentType = "image/jpeg" ∨ contentType = "image/jpg" then lib.jpegDecode body
    else if contentType = "image/png" then lib.pngDecode body
    else if contentType = "image/webp" then lib.webpDecode body
    else none

/-- The function `encodeImage`. -/
def encodeImage (lib : Lib) (img : Image) (quality : Int) (format : String) : Option Bytes :=
  if format = "webp" then lib.webpEncode img quality else none

/-- The function `writeCachedImage`. -/
def writeCachedImage (data : Bytes) : Response :=
  { StatusCode := 200
    Header := [("Content-Type", "image/webp"), ("Cache-Control", "public, max-age=31536000"),
      ("Content-Length", fmtInteger data.length)]
    Body := data }

/-- The variable `imagePath` of `ResizeImage`: the decoded identifier under
`uploads/`, or the identifier itself under `ads/` when it does not decode. -/
def imagePath (filename : String) : String :=
  match DecodeString filename with
  | none => "ads/" ++ filename
  | some decodedImagePath => "uploads/" ++ bytesToString decodedImagePath

/-- The variable `fullImagePath` of `ResizeImage`. -/
def fullImagePath (filename : String) : String := baseURL ++ imagePath filename

/-- The variable `cacheFileName` of `ResizeImage`:
`fmt.Sprintf("%s_%dx%d_q%d_crop%s.webp", filename, width, height, quality, crop)`. -/
def cacheFileName (filename : String) (width height quality : Int) (crop : String) : String :=
  filename ++ "_" ++ fmtInteger width ++ "x" ++ fmtInteger height ++ "_q" ++ fmtInteger quality
    ++ "_crop" ++ crop ++ ".webp"

/-- The part of `ResizeImage` after validation: cache lookup, and on a miss
download, transform, encode, store and respond. -/
def serve (lib : Lib) (disk : Disk) (remote : Remote) (filename : String)
    (quality width height : Int) (crop : String) : Outcome :=
  let cacheFilePath := lib.Join cacheDir (cacheFileName filename width height quality crop)
  match disk.ReadFile cacheFilePath with
  | some cachedData => ⟨writeCachedImage cachedData, disk, [.ReadFile cacheFilePath]⟩
  | none =>
    match downloadAndDecodeImage lib remote (fullImagePath filename) with
    | none =>
      ⟨httpError "No se pudo procesar la imagen" 500, disk,
        [.ReadFile cacheFilePath, .Get (fullImagePath filename)]⟩
    | some img =>
      let resizedImage := resizeAndCropImage lib.Lanczos3 img width height (decide (crop = "true"))
      match encodeImage lib resizedImage quality "webp" with
      | none =>
        ⟨httpError "No se pudo codificar la imagen" 500, disk,
          [.ReadFile cacheFilePath, .Get (fullImagePath filename)]⟩
      | some webpData =>
        let saved := saveToDisk disk cacheFilePath webpData
        ⟨writeCachedImage webpData, saved.1,
          [.ReadFile cacheFilePath, .Get (fullImagePath filename),
            .WriteFile cacheFilePath saved.2]⟩

/-- The method `ResizeController.ResizeImage`: the three numbers are parsed
and checked in the order quality, width, height; the first that fails ends the
request with status 400. -/
def ResizeImage (lib : Lib) (disk : Disk) (remote : Remote)
    (filename qualityStr widthStr heightStr crop : String) : Outcome :=
  match Atoi qualityStr with
  | none => ⟨httpError "El valor de calidad no es válido" 400, disk, []⟩
  | some quality =>
    if quality ≤ 0 then ⟨httpError "El valor de calidad no es válido" 400, disk, []⟩
    else
      match Atoi widthStr with
      | none => ⟨httpError "El valor de ancho no es válido" 400, disk, []⟩
      | some width =>
        if width ≤ 0 then ⟨httpError "El valor de ancho no es válido" 400, disk, []⟩
        else
          match Atoi heightStr with
          | none => ⟨httpError "El valor de alto no es válido" 400, disk, []⟩
          | some height =>
            if height ≤ 0 then ⟨httpError "El valor de alto no es válido" 400, disk, []⟩
            else serve lib disk remote filename quality width height crop

/-! ## The words of the specification -/

/-- A decimal integer: an optional sign `+` or `-`, then one or more of the
digits `0` to `9`, and nothing else. -/
def isDecimalInteger (s : String) : Bool :=
  match s.data with
  | '+' :: body => !body.isEmpty && body.all Char.isDigit
  | '-' :: body => !body.isEmpty && body.all Char.isDigit
  | body => !body.isEmpty && body.all Char.isDigit

/-- The number written by a string of digits. -/
def digitsValue (body : List Char) : Nat :=
  body.foldl (fun n c => 10 * n + (c.toNat - '0'.toNat)) 0

/-- The value of a decimal integer. -/
def decimalValue (s : String) : Int :=
  match s.data with
  | '+' :: body => digitsValue body
  | '-' :: body => -(digitsValue body : Int)
  | body => digitsValue body

/-- A request parameter that the specification accepts: a decimal integer with
a positive value. -/
def positiveDecimal (s : String) : Bool :=
  isDecimalInteger s && decide (0 < decimalValue s)

/-- The largest machine `int`. -/
def maxInt : Int := 2 ^ 63 - 1

/-! ## Sample values -/

/-- A resampler that repeats the nearest source pixel. -/
def sampleFilter : InterpolationFunction := fun img width height x y =>
  img.At (img.Bounds.Min.X + x * img.Bounds.Dx / width) (img.Bounds.Min.Y + y * img.Bounds.Dy / height)

/-- An image of one colour on `[0, w) x [0, h)`. -/
def plainImage (w h : Int) : Image := ⟨Rect 0 0 w h, fun _ _ => ⟨10, 20, 30, 255⟩⟩

/-- Library stand-ins: every body decodes to a 400 by 400 image, the encoder
writes the two dimensions of the image and the quality, and a path is joined
with a slash (without the clean-up of `filepath.Join`). -/
def sampleLib : Lib :=
  { jpegDecode := fun _ => some (plainImage 400 400)
    pngDecode := fun _ => some (plainImage 400 400)
    webpDecode := fun _ => some (plainImage 400 400)
    webpEncode := fun img q => some [img.Bounds.Dx.toNat, img.Bounds.Dy.toNat, q.toNat]
    Lanczos3 := sampleFilter
    Join := fun dir name => dir ++ "/" ++ name }

/-- A remote store that serves a JPEG at every address. -/
def sampleRemote : Remote := fun _ => .response 200 "image/jpeg" [255, 216, 255]

/-- A remote store where nothing is found. -/
def goneRemote : Remote := fun _ => .response 404 "text/plain" []

/-! ## Integer formatting and the cache key -/

theorem fmtBits_append (fuel u : Nat) (acc : List Char) :
    fmtBits fuel u acc = fmtBits fuel u [] ++ acc := by
  induction fuel generalizing u acc with
  | zero => simp [fmtBits]
  | succ n ih =>
    simp only [fmtBits]
    split
    · simp
    · rw [ih, ih (u / 10) [digitByte (u % 10)]]
      simp

theorem digitByte_toNat (d : Nat) (h : d < 10) : (digitByte d).toNat = 48 + d := by
  interval_cases d <;> rfl

theorem digitsValue_append (l : List Char) (c : Char) :
    digitsValue (l ++ [c]) = 10 * digitsValue l + (c.toNat - 48) := by
  simp [digitsValue, List.foldl_append]


theorem fmtBits_spec (fuel u : Nat) (h : u < fuel) :
    digitsValue (fmtBits fuel u []) = u ∧ (∀ c ∈ fmtBits fuel u [], isDigitChar c)
      ∧ fmtBits fuel u [] ≠ [] := by
  induction fuel generalizing u with
  | zero => omega
  | succ n ih =>
    simp only [fmtBits]
    split
    · rename_i hu
      have := digitByte_toNat u hu
      refine ⟨?_, ?_, by simp⟩
      · simp [digitsValue, this]
      · intro c hc
        simp at hc
        subst hc
        simp [isDigitChar, this]; omega
    · rename_i hu
      rw [fmtBits_append]
      obtain ⟨h1, h2, h3⟩ := ih (u / 10) (by omega)
      have := digitByte_toNat (u % 10) (by omega)
      refine ⟨?_, ?_, by simp⟩
      · rw [digitsValue_append, h1, this]; omega
      · intro c hc
        simp at hc
        rcases hc with hc | hc
        · exact h2 c hc
        · subst hc
          simp [isDigitChar, this]; omega

theorem fmtNat_injective {a b : Nat} (h : fmtNat a = fmtNat b) : a = b := by
  have ha := (fmtBits_spec (a + 1) a (by omega)).1
  have hb := (fmtBits_spec (b + 1) b (by omega)).1
  unfold fmtNat at h
  rw [h] at ha
  omega

theorem fmtNat_digits (a : Nat) : ∀ c ∈ fmtNat a, isDigitChar c :=
  (fmtBits_spec (a + 1) a (by omega)).2.1

theorem fmtInteger_pos (v : Int) (h : 0 < v) : (fmtInteger v).data = fmtNat v.natAbs := by
  simp [fmtInteger, not_lt.mpr h.le]

theorem split_last {d : Char} {a b s t : List Char} (hs : d ∉ s) (ht : d ∉ t)
    (h : a ++ d :: s = b ++ d :: t) : a = b ∧ s = t := by
  induction a generalizing b with
  | nil =>
    cases b with
    | nil => simpa using h
    | cons x b =>
      simp at h
      exact absurd (h.2 ▸ by simp) hs
  | cons y a ih =>
    cases b with
    | nil =>
      simp at h
      exact absurd (h.2 ▸ by simp) ht
    | cons x b =>
      simp at h
      obtain ⟨h1, h2⟩ := ih h.2
      exact ⟨by rw [h.1, h1], h2⟩

theorem cacheFileName_data (f : String) (w h q : Int) (c : String) (hw : 0 < w) (hh : 0 < h)
    (hq : 0 < q) :
    (cacheFileName f w h q c).data =
      ((((f.data ++ '_' :: fmtNat w.natAbs) ++ 'x' :: fmtNat h.natAbs) ++ ['_'])
          ++ 'q' :: fmtNat q.natAbs)
        ++ '_' :: ('c' :: 'r' :: 'o' :: 'p' :: (c.data ++ ['.', 'w', 'e', 'b', 'p'])) := by
  simp [cacheFileName, String.data_append, fmtInteger_pos, hw, hh, hq]

theorem not_mem_fmtNat (n : Nat) (d : Char) (hd : ¬ isDigitChar d) : d ∉ fmtNat n :=
  fun hmem => hd (fmtNat_digits n d hmem)

theorem natAbs_inj_pos {a b : Int} (ha : 0 < a) (hb : 0 < b) (h : a.natAbs = b.natAbs) : a = b := by
  omega

theorem key_injective_aux (f1 f2 : String) (w1 h1 q1 w2 h2 q2 : Int) (c1 c2 : String)
    (hw1 : 0 < w1) (hh1 : 0 < h1) (hq1 : 0 < q1) (hw2 : 0 < w2) (hh2 : 0 < h2) (hq2 : 0 < q2)
    (hc1 : '_' ∉ c1.data) (hc2 : '_' ∉ c2.data)
    (h : cacheFileName f1 w1 h1 q1 c1 = cacheFileName f2 w2 h2 q2 c2) :
    f1 = f2 ∧ w1 = w2 ∧ h1 = h2 ∧ q1 = q2 ∧ c1 = c2 := by
  have hd := congrArg String.data h
  rw [cacheFileName_data _ _ _ _ _ hw1 hh1 hq1, cacheFileName_data _ _ _ _ _ hw2 hh2 hq2] at hd
  obtain ⟨hA, hC⟩ := split_last (by simp [hc1]) (by simp [hc2]) hd
  simp only [List.cons.injEq, true_and] at hC
  have hc : c1.data = c2.data := List.append_cancel_right hC
  obtain ⟨hB, hQ⟩ := split_last (not_mem_fmtNat _ _ (by decide)) (not_mem_fmtNat _ _ (by decide)) hA
  have hB' := List.append_cancel_right hB
  obtain ⟨hD, hH⟩ := split_last (not_mem_fmtNat _ _ (by decide)) (not_mem_fmtNat _ _ (by decide)) hB'
  obtain ⟨hF, hW⟩ := split_last (not_mem_fmtNat _ _ (by decide)) (not_mem_fmtNat _ _ (by decide)) hD
  exact ⟨String.ext hF, natAbs_inj_pos hw1 hw2 (fmtNat_injective hW),
    natAbs_inj_pos hh1 hh2 (fmtNat_injective hH), natAbs_inj_pos hq1 hq2 (fmtNat_injective hQ),
    String.ext hc⟩

/-! ## The base64 decoder -/

theorem decodeMap_encodeChar (v : Nat) (h : v < 64) : decodeMap (encodeChar v) = v := by
  interval_cases v <;> decide

theorem lor_eq_add (x c i : Nat) (hx : 2 ^ i ∣ x) (hc : c < 2 ^ i) : x ||| c = x + c := by
  obtain ⟨k, rfl⟩ := hx
  exact (Nat.mul_add_lt_is_or hc k).symm

theorem and63 (x : Nat) : x &&& 63 = x % 64 := Nat.and_pow_two_sub_one_eq_mod x 6

theorem pack3 (a b c : Nat) (hb : b < 256) (hc : c < 256) :
    a <<< 16 ||| b <<< 8 ||| c = a * 65536 + b * 256 + c := by
  simp only [Nat.shiftLeft_eq]
  rw [lor_eq_add (a * 2 ^ 16) (b * 2 ^ 8) 16 (by omega) (by omega),
    lor_eq_add _ c 8 (by omega) (by omega)]

theorem pack2 (a b : Nat) (hb : b < 256) :
    a <<< 16 ||| b <<< 8 = a * 65536 + b * 256 := by
  simp only [Nat.shiftLeft_eq]
  rw [lor_eq_add (a * 2 ^ 16) (b * 2 ^ 8) 16 (by omega) (by omega)]

theorem pack4 (s0 s1 s2 s3 : Nat) (h1 : s1 < 64) (h2 : s2 < 64) (h3 : s3 < 64) :
    s0 <<< 18 ||| s1 <<< 12 ||| s2 <<< 6 ||| s3 = s0 * 262144 + s1 * 4096 + s2 * 64 + s3 := by
  simp only [Nat.shiftLeft_eq]
  rw [lor_eq_add (s0 * 2 ^ 18) (s1 * 2 ^ 12) 18 (by omega) (by omega),
    lor_eq_add _ (s2 * 2 ^ 6) 12 (by omega) (by omega),
    lor_eq_add _ s3 6 (by omega) (by omega)]


theorem decodeMap_encodeChar_ne (v : Nat) (h : v < 64) : decodeMap (encodeChar v) ≠ 255 := by
  rw [decodeMap_encodeChar v h]; omega

theorem decodeMap_padChar : decodeMap padChar = 255 := by decide

theorem decodeFrom_quantum (s0 s1 s2 s3 : Nat) (h0 : s0 < 64) (h1 : s1 < 64) (h2 : s2 < 64)
    (h3 : s3 < 64) (rest : List Char) :
    decodeFrom [] (encodeChar s0 :: encodeChar s1 :: encodeChar s2 :: encodeChar s3 :: rest)
      = (decodeFrom [] rest).map fun out => quantumBytes [s0, s1, s2, s3] ++ out := by
  have e0 : s0 ≠ 255 := by omega
  have e1 : s1 ≠ 255 := by omega
  have e2 : s2 ≠ 255 := by omega
  have e3 : s3 ≠ 255 := by omega
  simp [decodeFrom, decodeMap_encodeChar, h0, h1, h2, h3, e0, e1, e2, e3]

theorem quantumBytes_four (a b c : Nat) (ha : a < 256) (hb : b < 256) (hc : c < 256) :
    quantumBytes [(a <<< 16 ||| b <<< 8 ||| c) >>> 18 &&& 63,
      (a <<< 16 ||| b <<< 8 ||| c) >>> 12 &&& 63, (a <<< 16 ||| b <<< 8 ||| c) >>> 6 &&& 63,
      (a <<< 16 ||| b <<< 8 ||| c) &&& 63] = [a, b, c] := by
  simp only [quantumBytes, pack3 a b c hb hc, and63, Nat.shiftRight_eq_div_pow, List.getD_cons_zero,
    List.getD_cons_succ, List.length_cons, List.length_nil]
  rw [pack4 _ _ _ _ (Nat.mod_lt _ (by norm_num)) (Nat.mod_lt _ (by norm_num)) (Nat.mod_lt _ (by norm_num))]
  simp only [List.take, List.cons.injEq, and_true]
  refine ⟨?_, ?_, ?_⟩ <;> omega


theorem decodeFrom_pad1 (s0 s1 s2 : Nat) (h0 : s0 < 64) (h1 : s1 < 64) (h2 : s2 < 64) :
    decodeFrom [] [encodeChar s0, encodeChar s1, encodeChar s2, padChar]
      = some (quantumBytes [s0, s1, s2]) := by
  have e0 : s0 ≠ 255 := by omega
  have e1 : s1 ≠ 255 := by omega
  have e2 : s2 ≠ 255 := by omega
  have hp : ¬ (padChar = '\n' ∨ padChar = '\r') := by decide
  simp [decodeFrom, decodeMap_encodeChar, decodeMap_padChar, h0, h1, h2, e0, e1, e2, hp, skipNewlines]

theorem decodeFrom_pad2 (s0 s1 : Nat) (h0 : s0 < 64) (h1 : s1 < 64) :
    decodeFrom [] [encodeChar s0, encodeChar s1, padChar, padChar]
      = some (quantumBytes [s0, s1]) := by
  have e0 : s0 ≠ 255 := by omega
  have e1 : s1 ≠ 255 := by omega
  have hp : ¬ (padChar = '\n' ∨ padChar = '\r') := by decide
  simp [decodeFrom, decodeMap_encodeChar, decodeMap_padChar, h0, h1, e0, e1, hp, skipNewlines]

theorem decodeFrom_short3 (s0 s1 s2 : Nat) (h0 : s0 < 64) (h1 : s1 < 64) (h2 : s2 < 64) :
    decodeFrom [] [encodeChar s0, encodeChar s1, encodeChar s2] = none := by
  have e0 : s0 ≠ 255 := by omega
  have e1 : s1 ≠ 255 := by omega
  have e2 : s2 ≠ 255 := by omega
  simp [decodeFrom, decodeMap_encodeChar, h0, h1, h2, e0, e1, e2]

theorem decodeFrom_short2 (s0 s1 : Nat) (h0 : s0 < 64) (h1 : s1 < 64) :
    decodeFrom [] [encodeChar s0, encodeChar s1] = none := by
  have e0 : s0 ≠ 255 := by omega
  have e1 : s1 ≠ 255 := by omega
  simp [decodeFrom, decodeMap_encodeChar, h0, h1, e0, e1]

theorem quantumBytes_three (a b : Nat) (ha : a < 256) (hb : b < 256) :
    quantumBytes [(a <<< 16 ||| b <<< 8) >>> 18 &&& 63,
      (a <<< 16 ||| b <<< 8) >>> 12 &&& 63, (a <<< 16 ||| b <<< 8) >>> 6 &&& 63] = [a, b] := by
  simp only [quantumBytes, pack2 a b hb, and63, Nat.shiftRight_eq_div_pow, List.getD_cons_zero,
    List.getD_cons_succ, List.length_cons, List.length_nil, List.getD_nil]
  rw [pack4 _ _ _ _ (Nat.mod_lt _ (by norm_num)) (Nat.mod_lt _ (by norm_num)) (by norm_num)]
  simp only [List.take, List.cons.injEq, and_true]
  refine ⟨?_, ?_⟩ <;> omega

theorem quantumBytes_two (a : Nat) (ha : a < 256) :
    quantumBytes [(a <<< 16) >>> 18 &&& 63, (a <<< 16) >>> 12 &&& 63] = [a] := by
  simp only [quantumBytes, Nat.shiftLeft_eq, and63, Nat.shiftRight_eq_div_pow, List.getD_cons_zero,
    List.getD_cons_succ, List.length_cons, List.length_nil, List.getD_nil]
  have := pack4 (a * 2 ^ 16 / 2 ^ 18 % 64) (a * 2 ^ 16 / 2 ^ 12 % 64) 0 0
    (Nat.mod_lt _ (by norm_num)) (by norm_num) (by norm_num)
  simp only [Nat.shiftLeft_eq] at this
  rw [this]
  simp only [List.take, List.cons.injEq, and_true]
  omega

/-- Decoding inverts the padded encoder. -/
theorem decodeFrom_encodeBytes (p : Bytes) (hp : ∀ b ∈ p, b < 256) :
    decodeFrom [] (encodeBytes true p) = some p := by
  induction p using encodeBytes.induct true with
  | case1 a b c rest ih =>
    have ha : a < 256 := hp a (by simp)
    have hb : b < 256 := hp b (by simp)
    have hc : c < 256 := hp c (by simp)
    have hr := ih fun x hx => hp x (by simp [hx])
    simp only [encodeBytes, and63]
    rw [decodeFrom_quantum _ _ _ _ (Nat.mod_lt _ (by norm_num)) (Nat.mod_lt _ (by norm_num))
      (Nat.mod_lt _ (by norm_num)) (Nat.mod_lt _ (by norm_num)), hr]
    simp only [← and63, quantumBytes_four a b c ha hb hc]
    rfl
  | case2 a b =>
    have ha : a < 256 := hp a (by simp)
    have hb : b < 256 := hp b (by simp)
    simp only [encodeBytes, and63, if_true, List.cons_append, List.nil_append]
    rw [decodeFrom_pad1 _ _ _ (Nat.mod_lt _ (by norm_num)) (Nat.mod_lt _ (by norm_num))
      (Nat.mod_lt _ (by norm_num))]
    simp only [← and63, quantumBytes_three a b ha hb]
  | case3 a =>
    have ha : a < 256 := hp a (by simp)
    simp only [encodeBytes, and63, if_true, List.cons_append, List.nil_append]
    rw [decodeFrom_pad2 _ _ (Nat.mod_lt _ (by norm_num)) (Nat.mod_lt _ (by norm_num))]
    simp only [← and63, quantumBytes_two a ha]
  | case4 => simp [encodeBytes, decodeFrom]

/-! ## Parameter parsing -/

theorem isDigit_iff (c : Char) : c.isDigit = true ↔ ¬ (c.toNat < 48 ∨ 57 < c.toNat) := by
  simp only [Char.isDigit, Char.toNat, Bool.and_eq_true, decide_eq_true_eq, not_or, not_lt,
    ge_iff_le, UInt32.le_def, UInt32.toNat]
  rfl

theorem parseDigits_eq (ds : List Char) (n : Nat) :
    parseDigits ds n = if ds.all Char.isDigit then
      some (ds.foldl (fun n c => 10 * n + (c.toNat - '0'.toNat)) n) else none := by
  induction ds generalizing n with
  | nil => simp [parseDigits]
  | cons c cs ih =>
    simp only [parseDigits, List.all_cons, List.foldl_cons, Bool.and_eq_true]
    by_cases hc : c.isDigit = true
    · have := (isDigit_iff c).1 hc
      rw [if_neg this, ih]
      simp only [hc, true_and, Nat.mul_comm n 10]
      rfl
    · have : c.toNat < 48 ∨ 57 < c.toNat := by
        by_contra h
        exact hc ((isDigit_iff c).2 h)
      simp [this, hc]

theorem parseUint_eq (ds : List Char) :
    parseUint ds = if (!ds.isEmpty && ds.all Char.isDigit) = true then some (digitsValue ds)
      else none := by
  cases ds with
  | nil => simp [parseUint]
  | cons c cs => simp only [parseUint, parseDigits_eq, digitsValue, List.isEmpty_cons, Bool.not_false, Bool.true_and]

theorem isDecimalInteger_cons (s : String) (c : Char) (cs : List Char) (hs : s.data = c :: cs) :
    isDecimalInteger s =
      (!(if c = '-' ∨ c = '+' then cs else c :: cs).isEmpty
        && (if c = '-' ∨ c = '+' then cs else c :: cs).all Char.isDigit) := by
  unfold isDecimalInteger
  rw [hs]
  split
  · rename_i h; simp at h; simp [h.1, h.2]
  · rename_i h; simp at h; simp [h.1, h.2]
  · rename_i h1 h2
    have hp : c ≠ '+' := fun h => h1 cs (by rw [h])
    have hm : c ≠ '-' := fun h => h2 cs (by rw [h])
    simp [hp, hm]

theorem decimalValue_cons (s : String) (c : Char) (cs : List Char) (hs : s.data = c :: cs) :
    decimalValue s =
      if c = '-' then -(digitsValue cs : Int)
      else (digitsValue (if c = '-' ∨ c = '+' then cs else c :: cs) : Int) := by
  unfold decimalValue
  rw [hs]
  split
  · rename_i h; simp at h; simp [h.1, h.2]
  · rename_i h; simp at h; simp [h.1, h.2]
  · rename_i h1 h2
    have hp : c ≠ '+' := fun h => h1 cs (by rw [h])
    have hm : c ≠ '-' := fun h => h2 cs (by rw [h])
    simp [hp, hm]

theorem Atoi_pos_iff (s : String) :
    (∃ v, Atoi s = some v ∧ 0 < v) ↔
      (isDecimalInteger s = true ∧ 0 < decimalValue s ∧ decimalValue s ≤ maxInt) := by
  cases hs : s.data with
  | nil => simp [Atoi, isDecimalInteger, hs]
  | cons c cs =>
    rw [isDecimalInteger_cons s c cs hs, decimalValue_cons s c cs hs]
    simp only [Atoi, hs, parseUint_eq, maxInt, intSize]
    by_cases hm : c = '-'
    · simp only [hm, true_or, if_true]
      constructor
      · rintro ⟨v, hv, hpos⟩
        exfalso
        split at hv
        · simp at hv
        · split at hv
          · simp at hv; omega
          · simp at hv
      · rintro ⟨_, h, _⟩
        omega
    · simp only [hm, false_or, if_false]
      generalize (if c = '+' then cs else c :: cs) = body
      by_cases hb : (!body.isEmpty && body.all Char.isDigit) = true
      · simp only [hb, if_true, true_and]
        constructor
        · rintro ⟨v, hv, hpos⟩
          split at hv
          · simp at hv; omega
          · simp at hv
        · rintro ⟨h1, h2⟩
          refine ⟨digitsValue body, ?_, h1⟩
          rw [if_pos (by omega)]
      · simp [hb]

/-! ## Geometry -/

theorem Rect_nonneg_Dx (a b : Nat) : (Rect 0 0 a b).Dx = a ∧ (Rect 0 0 a b).Dy = b
    ∧ (Rect 0 0 a b).Min = ⟨0, 0⟩ := by
  have ha : ¬ (0 : Int) > a := by omega
  have hb : ¬ (0 : Int) > b := by omega
  simp [Rect, Rectangle.Dx, Rectangle.Dy, ha, hb]

theorem trivial_or_new (img : Image) (a b : Nat) (f : Int → Int → RGBA) :
    (if (a : Int) = img.Bounds.Dx ∧ (b : Int) = img.Bounds.Dy then img
      else (⟨Rect 0 0 a b, f⟩ : Image)).Bounds.Dx = a
    ∧ (if (a : Int) = img.Bounds.Dx ∧ (b : Int) = img.Bounds.Dy then img
      else (⟨Rect 0 0 a b, f⟩ : Image)).Bounds.Dy = b
    ∧ (img.Bounds.Min = ⟨0, 0⟩ →
      (if (a : Int) = img.Bounds.Dx ∧ (b : Int) = img.Bounds.Dy then img
        else (⟨Rect 0 0 a b, f⟩ : Image)).Bounds.Min = ⟨0, 0⟩) := by
  split
  · rename_i h
    exact ⟨h.1.symm, h.2.symm, fun h0 => h0⟩
  · exact ⟨(Rect_nonneg_Dx a b).1, (Rect_nonneg_Dx a b).2.1, fun _ => (Rect_nonneg_Dx a b).2.2⟩

/-- The two dimensions `Resize` works out for an image that has pixels. -/
theorem Resize_bounds (W H : Nat) (img : Image) (L : InterpolationFunction)
    (hx : 0 < img.Bounds.Dx) (hy : 0 < img.Bounds.Dy) :
    ((Resize W H img L).Bounds.Dx =
        ((if W = 0 then ⌊(7 / 10 : ℚ) + img.Bounds.Dx
          / (calcFactors W H img.Bounds.Dx img.Bounds.Dy).1⌋.toNat else W : Nat) : Int))
    ∧ ((Resize W H img L).Bounds.Dy =
        ((if H = 0 then ⌊(7 / 10 : ℚ) + img.Bounds.Dy
          / (calcFactors W H img.Bounds.Dx img.Bounds.Dy).2⌋.toNat else H : Nat) : Int))
    ∧ (img.Bounds.Min = ⟨0, 0⟩ → (Resize W H img L).Bounds.Min = ⟨0, 0⟩) := by
  have hn : ¬ (img.Bounds.Dx ≤ 0 ∨ img.Bounds.Dy ≤ 0) := by omega
  simp only [Resize, hn, if_false]
  exact trivial_or_new img _ _ _

theorem floor_ge_of_le (t : Int) (x : ℚ) (ht : 0 ≤ t) (h : (t : ℚ) ≤ x) :
    t ≤ (⌊(7 / 10 : ℚ) + x⌋.toNat : Int) := by
  have h1 : t ≤ ⌊(7 / 10 : ℚ) + x⌋ := Int.le_floor.2 (by linarith)
  rw [Int.toNat_of_nonneg (by omega)]
  exact h1

/-- The intermediate image of the crop path covers the target. -/
theorem cropResized_covers (L : InterpolationFunction) (img : Image) (w h : Int)
    (hx : 0 < img.Bounds.Dx) (hy : 0 < img.Bounds.Dy) (hw : 0 < w) (hh : 0 < h) :
    w ≤ (cropResized L img w h).Bounds.Dx ∧ h ≤ (cropResized L img w h).Bounds.Dy
    ∧ ((cropResized L img w h).Bounds.Dx = w ∨ (cropResized L img w h).Bounds.Dy = h)
    ∧ (img.Bounds.Min = ⟨0, 0⟩ → (cropResized L img w h).Bounds.Min = ⟨0, 0⟩) := by
  have hyne : img.Bounds.Dy ≠ 0 := by omega
  have hhne : h ≠ 0 := by omega
  have hwn : (uint w) ≠ 0 := by unfold uint; omega
  have hhn : (uint h) ≠ 0 := by unfold uint; omega
  have hwc : ((uint w : Nat) : Int) = w := by unfold uint; omega
  have hhc : ((uint h : Nat) : Int) = h := by unfold uint; omega
  have hwq : ((uint w : Nat) : ℚ) = (w : ℚ) := by exact_mod_cast hwc
  have hhq : ((uint h : Nat) : ℚ) = (h : ℚ) := by exact_mod_cast hhc
  have qx : (0 : ℚ) < img.Bounds.Dx := by exact_mod_cast hx
  have qy : (0 : ℚ) < img.Bounds.Dy := by exact_mod_cast hy
  have qw : (0 : ℚ) < w := by exact_mod_cast hw
  have qh : (0 : ℚ) < h := by exact_mod_cast hh
  unfold cropResized
  simp only [F64.quot, hyne, hhne, if_false, F64.gt, decide_eq_true_eq]
  split
  · rename_i hgt
    obtain ⟨h1, h2, h3⟩ := Resize_bounds 0 (uint h) img L hx hy
    simp only [if_true, hhn, if_false, calcFactors, hhq] at h1 h2
    rw [h1, h2, hhc]
    refine ⟨?_, le_refl _, Or.inr rfl, h3⟩
    apply floor_ge_of_le w _ hw.le
    rw [div_lt_div_iff₀ qh qy] at hgt
    rw [le_div_iff₀ (by positivity), ← mul_div_assoc, div_le_iff₀ qh]
    linarith
  · rename_i hgt
    obtain ⟨h1, h2, h3⟩ := Resize_bounds (uint w) 0 img L hx hy
    simp only [if_true, hwn, if_false, calcFactors, hwq] at h1 h2
    rw [h1, h2, hwc]
    refine ⟨le_refl _, ?_, Or.inl rfl, h3⟩
    apply floor_ge_of_le h _ hh.le
    rw [not_lt, div_le_div_iff₀ qy qh] at hgt
    rw [le_div_iff₀ (by positivity), ← mul_div_assoc, div_le_iff₀ qw]
    linarith

/-! ## The resolver and the cache key: claims C3, C4, C7, C8 -/

/-- Decoding the encoder output without padding succeeds only when no padding
was due. -/
theorem decodeFrom_encodeBytes_raw (p : Bytes) (hp : ∀ b ∈ p, b < 256) :
    decodeFrom [] (encodeBytes false p) = if p.length % 3 = 0 then some p else none := by
  induction p using encodeBytes.induct false with
  | case1 a b c rest ih =>
    have ha : a < 256 := hp a (by simp)
    have hb : b < 256 := hp b (by simp)
    have hc : c < 256 := hp c (by simp)
    have hr := ih fun x hx => hp x (by simp [hx])
    simp only [encodeBytes, and63]
    rw [decodeFrom_quantum _ _ _ _ (Nat.mod_lt _ (by norm_num)) (Nat.mod_lt _ (by norm_num))
      (Nat.mod_lt _ (by norm_num)) (Nat.mod_lt _ (by norm_num)), hr]
    simp only [← and63, quantumBytes_four a b c ha hb hc]
    have hl : (a :: b :: c :: rest).length % 3 = rest.length % 3 := by
      simp only [List.length_cons]; omega
    rw [hl]
    split <;> rfl
  | case2 a b =>
    simp only [encodeBytes, and63, Bool.false_eq_true, if_false, List.append_nil]
    rw [decodeFrom_short3 _ _ _ (Nat.mod_lt _ (by norm_num)) (Nat.mod_lt _ (by norm_num))
      (Nat.mod_lt _ (by norm_num))]
    rfl
  | case3 a =>
    simp only [encodeBytes, and63, Bool.false_eq_true, if_false, List.append_nil]
    rw [decodeFrom_short2 _ _ (Nat.mod_lt _ (by norm_num)) (Nat.mod_lt _ (by norm_num))]
    rfl
  | case4 => simp [encodeBytes, decodeFrom]

theorem mem_skipNewlines (c : Char) (l : List Char) (hc : c ∈ l) (h1 : c ≠ '\n') (h2 : c ≠ '\r') :
    c ∈ skipNewlines l := by
  induction l with
  | nil => simp at hc
  | cons d rest ih =>
    simp only [skipNewlines]
    split
    · rename_i hd
      rcases List.mem_cons.1 hc with h | h
      · subst h
        rcases hd with hd | hd
        · exact absurd hd h1
        · exact absurd hd h2
      · exact ih h
    · exact hc

/-- A byte that is neither in the alphabet nor a line break nor `=` makes the
decoder fail, wherever it stands. -/
theorem decodeFrom_bad (l : List Char) (dbuf : List Nat)
    (h : ∃ c ∈ l, decodeMap c = 255 ∧ c ≠ '\n' ∧ c ≠ '\r' ∧ c ≠ padChar) :
    decodeFrom dbuf l = none := by
  induction l generalizing dbuf with
  | nil => simp at h
  | cons d rest ih =>
    obtain ⟨c, hc, hbad, hn, hr, hp⟩ := h
    by_cases hd : d = c
    · subst hd
      simp [decodeFrom, hbad, hn, hr, hp]
    · have hrest : c ∈ rest := by
        rcases List.mem_cons.1 hc with h | h
        · exact absurd h.symm hd
        · exact h
      have hex : ∃ c ∈ rest, decodeMap c = 255 ∧ c ≠ '\n' ∧ c ≠ '\r' ∧ c ≠ padChar :=
        ⟨c, hrest, hbad, hn, hr, hp⟩
      simp only [decodeFrom]
      split
      · split
        · rw [ih [] hex]; rfl
        · exact ih _ hex
      · split
        · exact ih _ hex
        · split
          · rfl
          · split
            · have hm := mem_skipNewlines c rest hrest hn hr
              split
              · rename_i he; simp [he] at hm
              · rename_i c2 rest2 he
                split
                · rfl
                · rename_i hc2
                  rw [he] at hm
                  have hc2' : c2 = padChar := by simpa using hc2
                  have hm2 : c ∈ rest2 := by
                    rcases List.mem_cons.1 hm with h | h
                    · exact absurd (h.trans hc2') hp
                    · exact h
                  have hm3 := mem_skipNewlines c rest2 hm2 hn hr
                  split
                  · rename_i hlen
                    rw [List.length_eq_zero.1 hlen] at hm3; simp at hm3
                  · rfl
            · have hm := mem_skipNewlines c rest hrest hn hr
              split
              · rename_i hlen
                rw [List.length_eq_zero.1 hlen] at hm; simp at hm
              · rfl
            · rfl

/-- C7. Identifier resolution never fails: every identifier resolves to an
address under `ads/` or under `uploads/`.  If URL-safe base64 decoding of the
identifier succeeds with bytes `p`, the fetch address is the base address, then
`uploads/`, then `p`; if it fails, the address is the base address, then
`ads/`, then the identifier as given.  Decoding fails in particular when the
identifier holds a byte that is not in the alphabet and is neither a line
break nor `=`. -/
theorem identifier_resolution_total (s : String) :
    (fullImagePath s = baseURL ++ "ads/" ++ s
      ∨ ∃ p, fullImagePath s = baseURL ++ "uploads/" ++ bytesToString p)
    ∧ (∀ p, DecodeString s = some p → fullImagePath s = baseURL ++ "uploads/" ++ bytesToString p)
    ∧ (DecodeString s = none → fullImagePath s = baseURL ++ "ads/" ++ s)
    ∧ ((∃ c ∈ s.data, decodeMap c = 255 ∧ c ≠ '\n' ∧ c ≠ '\r' ∧ c ≠ padChar) →
        fullImagePath s = baseURL ++ "ads/" ++ s) := by
  have hsome : ∀ p, DecodeString s = some p →
      fullImagePath s = baseURL ++ "uploads/" ++ bytesToString p := by
    intro p hp
    simp [fullImagePath, imagePath, hp, String.append_assoc]
  have hnone : DecodeString s = none → fullImagePath s = baseURL ++ "ads/" ++ s := by
    intro hp
    simp [fullImagePath, imagePath, hp, String.append_assoc]
  refine ⟨?_, hsome, hnone, fun hbad => hnone (decodeFrom_bad _ _ hbad)⟩
  cases hd : DecodeString s with
  | none => exact Or.inl (hnone hd)
  | some p => exact Or.inr ⟨p, hsome p hd⟩

theorem identifier_resolution_total_witness :
    fullImagePath "dGVzdC5qcGc="
        = baseURL ++ "uploads/" ++ bytesToString (stringToBytes "test.jpg")
    ∧ fullImagePath "banner.jpg" = baseURL ++ "ads/" ++ "banner.jpg" :=
  ⟨(identifier_resolution_total "dGVzdC5qcGc=").2.1 (stringToBytes "test.jpg") (by decide),
    (identifier_resolution_total "banner.jpg").2.2.2 ⟨'.', by decide, by decide, by decide,
      by decide, by decide⟩⟩

/-- C8, counterexample. The encoding of `test.jpg` without padding is
`dGVzdC5qcGc`; the resolver does not decode it and resolves it under `ads/`,
not to `uploads/test.jpg`. -/
theorem unpadded_identifier_falls_back_to_ads :
    RawEncodeToString (stringToBytes "test.jpg") = "dGVzdC5qcGc"
    ∧ DecodeString "dGVzdC5qcGc" = none
    ∧ fullImagePath "dGVzdC5qcGc" = baseURL ++ "ads/" ++ "dGVzdC5qcGc"
    ∧ fullImagePath "dGVzdC5qcGc" ≠ baseURL ++ "uploads/" ++ bytesToString (stringToBytes "test.jpg") := by
  decide

/-- C8, amended. The identifier decoding requires the padding: for every byte
string `p`, the URL-safe base64 encoding of `p` with its `=` padding is decoded
by the resolver and resolves to the base address, then `uploads/`, then `p`.
Written without padding it resolves there only when the length of `p` is a
multiple of 3, where no padding was due; otherwise it resolves under `ads/`. -/
theorem padded_identifier_resolves_to_uploads (p : Bytes) (hp : ∀ b ∈ p, b < 256) :
    DecodeString (EncodeToString p) = some p
    ∧ fullImagePath (EncodeToString p) = baseURL ++ "uploads/" ++ bytesToString p
    ∧ fullImagePath (RawEncodeToString p)
      = if p.length % 3 = 0 then baseURL ++ "uploads/" ++ bytesToString p
        else baseURL ++ "ads/" ++ RawEncodeToString p := by
  have h1 : DecodeString (EncodeToString p) = some p := decodeFrom_encodeBytes p hp
  have h2 : DecodeString (RawEncodeToString p) = if p.length % 3 = 0 then some p else none :=
    decodeFrom_encodeBytes_raw p hp
  refine ⟨h1, ?_, ?_⟩
  · simp [fullImagePath, imagePath, h1, String.append_assoc]
  · split
    · rename_i h3
      rw [if_pos h3] at h2
      simp [fullImagePath, imagePath, h2, String.append_assoc]
    · rename_i h3
      rw [if_neg h3] at h2
      simp [fullImagePath, imagePath, h2, String.append_assoc]

theorem padded_identifier_resolves_to_uploads_witness :
    DecodeString (EncodeToString (stringToBytes "test.jpg")) = some (stringToBytes "test.jpg")
    ∧ fullImagePath (EncodeToString (stringToBytes "test.jpg"))
      = baseURL ++ "uploads/" ++ bytesToString (stringToBytes "test.jpg")
    ∧ fullImagePath (RawEncodeToString (stringToBytes "test.jpg"))
      = if (stringToBytes "test.jpg").length % 3 = 0 then
          baseURL ++ "uploads/" ++ bytesToString (stringToBytes "test.jpg")
        else baseURL ++ "ads/" ++ RawEncodeToString (stringToBytes "test.jpg") :=
  padded_identifier_resolves_to_uploads (stringToBytes "test.jpg") (by decide)

/-- C4. On well-formed requests the cache key is injective: for identifiers
of any content, positive widths, heights and qualities and crop values
`"true"` or `"false"`, equal keys come from equal tuples. -/
theorem cache_key_injective (f1 f2 : String) (w1 h1 q1 w2 h2 q2 : Int) (c1 c2 : String)
    (hw1 : 0 < w1) (hh1 : 0 < h1) (hq1 : 0 < q1) (hw2 : 0 < w2) (hh2 : 0 < h2) (hq2 : 0 < q2)
    (hc1 : c1 = "true" ∨ c1 = "false") (hc2 : c2 = "true" ∨ c2 = "false")
    (h : cacheFileName f1 w1 h1 q1 c1 = cacheFileName f2 w2 h2 q2 c2) :
    (f1, w1, h1, q1, c1) = (f2, w2, h2, q2, c2) := by
  have e1 : '_' ∉ c1.data := by rcases hc1 with h | h <;> subst h <;> decide
  have e2 : '_' ∉ c2.data := by rcases hc2 with h | h <;> subst h <;> decide
  obtain ⟨a, b, c, d, e⟩ := key_injective_aux f1 f2 w1 h1 q1 w2 h2 q2 c1 c2 hw1 hh1 hq1 hw2 hh2
    hq2 e1 e2 h
  rw [a, b, c, d, e]

theorem cache_key_injective_witness :
    ("a_1x1_q1_crop", (200 : Int), (100 : Int), (80 : Int), "true")
      = ("a_1x1_q1_crop", (200 : Int), (100 : Int), (80 : Int), "true") :=
  cache_key_injective "a_1x1_q1_crop" "a_1x1_q1_crop" 200 100 80 200 100 80 "true" "true"
    (by decide) (by decide) (by decide) (by decide) (by decide) (by decide) (Or.inl rfl)
    (Or.inl rfl) rfl

/-- C3, counterexample. The requests `("a", 1, 1, 1, "_1x1_q1_crop")` and
`("a_1x1_q1_crop", 1, 1, 1, "")` both pass validation, differ in identifier and
crop string, and have the same cache key. -/
theorem cache_key_collision :
    ("a", (1 : Int), (1 : Int), (1 : Int), "_1x1_q1_crop")
        ≠ ("a_1x1_q1_crop", (1 : Int), (1 : Int), (1 : Int), "")
    ∧ cacheFileName "a" 1 1 1 "_1x1_q1_crop" = cacheFileName "a_1x1_q1_crop" 1 1 1 ""
    ∧ (ResizeImage sampleLib ⟨[], []⟩ sampleRemote "a" "1" "1" "1" "_1x1_q1_crop").response.StatusCode
        ≠ 400
    ∧ (ResizeImage sampleLib ⟨[], []⟩ sampleRemote "a_1x1_q1_crop" "1" "1" "1" "").response.StatusCode
        ≠ 400 := by
  decide

/-- C3, amended. The cache key is collision-free for requests whose crop
string holds no underscore: two tuples (identifier, width, height, quality,
crop) with positive numbers and such crop strings that differ in at least one
component have different keys. -/
theorem distinct_requests_distinct_keys (f1 f2 : String) (w1 h1 q1 w2 h2 q2 : Int)
    (c1 c2 : String)
    (hw1 : 0 < w1) (hh1 : 0 < h1) (hq1 : 0 < q1) (hw2 : 0 < w2) (hh2 : 0 < h2) (hq2 : 0 < q2)
    (hc1 : '_' ∉ c1.data) (hc2 : '_' ∉ c2.data)
    (hne : (f1, w1, h1, q1, c1) ≠ (f2, w2, h2, q2, c2)) :
    cacheFileName f1 w1 h1 q1 c1 ≠ cacheFileName f2 w2 h2 q2 c2 := by
  intro h
  obtain ⟨a, b, c, d, e⟩ := key_injective_aux f1 f2 w1 h1 q1 w2 h2 q2 c1 c2 hw1 hh1 hq1 hw2 hh2
    hq2 hc1 hc2 h
  exact hne (by rw [a, b, c, d, e])

theorem distinct_requests_distinct_keys_witness :
    cacheFileName "a_1x1_q1_crop" 200 100 80 "yes" ≠ cacheFileName "a_1x1_q1_crop" 200 100 8 "0yes" :=
  distinct_requests_distinct_keys "a_1x1_q1_crop" "a_1x1_q1_crop" 200 100 80 200 100 8 "yes" "0yes"
    (by decide) (by decide) (by decide) (by decide) (by decide) (by decide) (by decide)
    (by decide) (by decide)

/-! ## The crop geometry: claims C1, C2, C10 -/

theorem croppedImage_bounds (src : Image) (x y w h : Int) (hw : 0 < w) (hh : 0 < h) :
    (croppedImage src x y w h).Bounds = ⟨⟨x, y⟩, ⟨x + w, y + h⟩⟩ := by
  have h1 : ¬ x > x + w := by omega
  have h2 : ¬ y > y + h := by omega
  simp [croppedImage, Draw, NewRGBA, Rect, h1, h2]

/-- C1. For every source image and all positive target dimensions, the crop
path of `resizeAndCropImage` returns an image whose bounds are exactly
`width` wide and `height` high whenever the crop rectangle
`[startX, startY, startX+width, startY+height]` lies within the bounds of the
resized image.  (The proof does not use that last condition: the output is
allocated on the crop rectangle itself.) -/
theorem crop_output_is_target_size (Lanczos3 : InterpolationFunction) (img : Image)
    (width height : Int) (hw : 0 < width) (hh : 0 < height)
    (_hin : (Rect (cropStartX (cropResized Lanczos3 img width height) width)
        (cropStartY (cropResized Lanczos3 img width height) height)
        (cropStartX (cropResized Lanczos3 img width height) width + width)
        (cropStartY (cropResized Lanczos3 img width height) height + height)).In
      (cropResized Lanczos3 img width height).Bounds = true) :
    (resizeAndCropImage Lanczos3 img width height true).Bounds.Dx = width
      ∧ (resizeAndCropImage Lanczos3 img width height true).Bounds.Dy = height := by
  simp only [resizeAndCropImage, if_true, croppedImage_bounds _ _ _ _ _ hw hh, Rectangle.Dx,
    Rectangle.Dy]
  constructor <;> omega

theorem crop_output_is_target_size_witness :
    (resizeAndCropImage sampleFilter (plainImage 400 400) 200 100 true).Bounds.Dx = 200
      ∧ (resizeAndCropImage sampleFilter (plainImage 400 400) 200 100 true).Bounds.Dy = 100 :=
  crop_output_is_target_size sampleFilter (plainImage 400 400) 200 100 (by decide) (by decide)
    (by
      simp [cropResized, cropStartX, cropStartY, Resize, calcFactors, F64.quot, F64.gt, uint,
        plainImage, Rect, Rectangle.Dx, Rectangle.Dy, Rectangle.In, Rectangle.Empty]
      norm_num
      decide)

/-- C2. For a source image with positive width and height and positive
targets, the intermediate resize of the crop path never undershoots: the
resized width is at least `width` and the resized height at least `height`,
one of the two being the target exactly; so `startX` and `startY` are not
negative and the crop rectangle ends within the resized width and height.
For a source whose bounds start at the origin, as every decoder output does,
the bounds of the cropped image lie in the bounds of the resized image
(`Rectangle.In`). -/
theorem crop_resize_never_undershoots (Lanczos3 : InterpolationFunction) (img : Image)
    (width height : Int) (hx : 0 < img.Bounds.Dx) (hy : 0 < img.Bounds.Dy)
    (hw : 0 < width) (hh : 0 < height) :
    width ≤ (cropResized Lanczos3 img width height).Bounds.Dx
    ∧ height ≤ (cropResized Lanczos3 img width height).Bounds.Dy
    ∧ ((cropResized Lanczos3 img width height).Bounds.Dx = width
        ∨ (cropResized Lanczos3 img width height).Bounds.Dy = height)
    ∧ 0 ≤ cropStartX (cropResized Lanczos3 img width height) width
    ∧ 0 ≤ cropStartY (cropResized Lanczos3 img width height) height
    ∧ cropStartX (cropResized Lanczos3 img width height) width + width
        ≤ (cropResized Lanczos3 img width height).Bounds.Dx
    ∧ cropStartY (cropResized Lanczos3 img width height) height + height
        ≤ (cropResized Lanczos3 img width height).Bounds.Dy
    ∧ (img.Bounds.Min = ⟨0, 0⟩ →
        (resizeAndCropImage Lanczos3 img width height true).Bounds.In
          (cropResized Lanczos3 img width height).Bounds = true) := by
  obtain ⟨h1, h2, h3, h4⟩ := cropResized_covers Lanczos3 img width height hx hy hw hh
  have ex : cropStartX (cropResized Lanczos3 img width height) width
      = ((cropResized Lanczos3 img width height).Bounds.Dx - width) / 2 :=
    Int.tdiv_eq_ediv (by omega) (by omega)
  have ey : cropStartY (cropResized Lanczos3 img width height) height
      = ((cropResized Lanczos3 img width height).Bounds.Dy - height) / 2 :=
    Int.tdiv_eq_ediv (by omega) (by omega)
  refine ⟨h1, h2, h3, by omega, by omega, by omega, by omega, ?_⟩
  intro h0
  have hmin := h4 h0
  simp only [resizeAndCropImage, if_true, croppedImage_bounds _ _ _ _ _ hw hh, Rectangle.In,
    Rectangle.Empty]
  have hX : (cropResized Lanczos3 img width height).Bounds.Max.X
      = (cropResized Lanczos3 img width height).Bounds.Dx := by
    simp [Rectangle.Dx, hmin]
  have hY : (cropResized Lanczos3 img width height).Bounds.Max.Y
      = (cropResized Lanczos3 img width height).Bounds.Dy := by
    simp [Rectangle.Dy, hmin]
  rw [hmin] 
  simp only [hX, hY]
  split
  · rfl
  · simp only [Bool.and_eq_true, decide_eq_true_eq]
    refine ⟨⟨⟨?_, ?_⟩, ?_⟩, ?_⟩ <;> omega

theorem crop_resize_never_undershoots_witness :
    (7 : Int) ≤ (cropResized sampleFilter (plainImage 10 3) 7 2).Bounds.Dx
    ∧ (2 : Int) ≤ (cropResized sampleFilter (plainImage 10 3) 7 2).Bounds.Dy
    ∧ 0 ≤ cropStartX (cropResized sampleFilter (plainImage 10 3) 7 2) 7
    ∧ 0 ≤ cropStartY (cropResized sampleFilter (plainImage 10 3) 7 2) 2
    ∧ (resizeAndCropImage sampleFilter (plainImage 10 3) 7 2 true).Bounds.In
        (cropResized sampleFilter (plainImage 10 3) 7 2).Bounds = true := by
  have h := crop_resize_never_undershoots sampleFilter (plainImage 10 3) 7 2 (by decide)
    (by decide) (by decide) (by decide)
  exact ⟨h.1, h.2.1, h.2.2.2.1, h.2.2.2.2.1, h.2.2.2.2.2.2.2 (by decide)⟩

/-- C10. Without cropping, `resizeAndCropImage` scales a source image with
positive dimensions to the target width and leaves the height free: the output
width is `width` exactly, whatever the height argument, and the height
argument has no effect on the result. -/
theorem nocrop_width_exact_height_ignored (Lanczos3 : InterpolationFunction) (img : Image)
    (width : Int) (hx : 0 < img.Bounds.Dx) (hy : 0 < img.Bounds.Dy) (hw : 0 < width) :
    (∀ height, (resizeAndCropImage Lanczos3 img width height false).Bounds.Dx = width)
    ∧ (∀ h1 h2, resizeAndCropImage Lanczos3 img width h1 false
        = resizeAndCropImage Lanczos3 img width h2 false) := by
  have hwn : (uint width) ≠ 0 := by unfold uint; omega
  have hwc : ((uint width : Nat) : Int) = width := by unfold uint; omega
  obtain ⟨h1, _, _⟩ := Resize_bounds (uint width) 0 img Lanczos3 hx hy
  simp only [hwn, if_false] at h1
  refine ⟨fun _ => ?_, fun _ _ => rfl⟩
  simp only [resizeAndCropImage, Bool.false_eq_true, if_false, h1, hwc]

theorem nocrop_width_exact_height_ignored_witness :
    (resizeAndCropImage sampleFilter (plainImage 400 300) 200 100 false).Bounds.Dx = 200
    ∧ resizeAndCropImage sampleFilter (plainImage 400 300) 200 100 false
      = resizeAndCropImage sampleFilter (plainImage 400 300) 200 999 false := by
  have h := nocrop_width_exact_height_ignored sampleFilter (plainImage 400 300) 200 (by decide)
    (by decide) (by decide)
  exact ⟨h.1 100, h.2 100 999⟩

/-! ## Validation and the disk cache: claims C5, C6, C9 -/

theorem serve_status (lib : Lib) (disk : Disk) (remote : Remote) (f : String) (q w h : Int)
    (crop : String) :
    (serve lib disk remote f q w h crop).response.StatusCode = 200
      ∨ (serve lib disk remote f q w h crop).response.StatusCode = 500 := by
  unfold serve
  simp only
  split
  · left; rfl
  · split
    · right; rfl
    · split
      · right; rfl
      · left; rfl

/-- What validation decides: the handler answers 400 or runs `serve`. -/
theorem ResizeImage_cases (lib : Lib) (disk : Disk) (remote : Remote)
    (f qs ws hs crop : String) :
    ((¬ ((∃ v, Atoi qs = some v ∧ 0 < v) ∧ (∃ v, Atoi ws = some v ∧ 0 < v)
          ∧ (∃ v, Atoi hs = some v ∧ 0 < v)))
      ∧ (ResizeImage lib disk remote f qs ws hs crop).response.StatusCode = 400
      ∧ (ResizeImage lib disk remote f qs ws hs crop).trace = []
      ∧ (ResizeImage lib disk remote f qs ws hs crop).disk = disk)
    ∨ ∃ q w h, Atoi qs = some q ∧ 0 < q ∧ Atoi ws = some w ∧ 0 < w ∧ Atoi hs = some h ∧ 0 < h
        ∧ ResizeImage lib disk remote f qs ws hs crop = serve lib disk remote f q w h crop := by
  unfold ResizeImage
  cases hq : Atoi qs with
  | none => left; simp [httpError]
  | some q =>
    by_cases hq0 : q ≤ 0
    · left; simp [httpError, hq0]
    · cases hw : Atoi ws with
      | none => left; simp [httpError, hq0]
      | some w =>
        by_cases hw0 : w ≤ 0
        · left; simp [httpError, hq0, hw0]
        · cases hh : Atoi hs with
          | none => left; simp [httpError, hq0, hw0]
          | some h =>
            by_cases hh0 : h ≤ 0
            · left; simp [httpError, hq0, hw0, hh0]
            · right
              exact ⟨q, w, h, rfl, by omega, rfl, by omega, rfl, by omega, by simp [hq0, hw0, hh0]⟩

/-- C6, amended. `ResizeImage` answers with status 400 if and only if at
least one of the quality, width and height strings is not a decimal integer,
or has a value that is not positive, or has a value above the largest machine
`int`; and a request answered with 400 reads no cache file, fetches nothing
and writes nothing. -/
theorem bad_request_iff_invalid_parameter (lib : Lib) (disk : Disk) (remote : Remote)
    (filename qualityStr widthStr heightStr crop : String) :
    ((ResizeImage lib disk remote filename qualityStr widthStr heightStr crop).response.StatusCode
        = 400
      ↔ ¬ ((positiveDecimal qualityStr = true ∧ decimalValue qualityStr ≤ maxInt)
          ∧ (positiveDecimal widthStr = true ∧ decimalValue widthStr ≤ maxInt)
          ∧ (positiveDecimal heightStr = true ∧ decimalValue heightStr ≤ maxInt)))
    ∧ ((ResizeImage lib disk remote filename qualityStr widthStr heightStr crop).response.StatusCode
        = 400
      → (ResizeImage lib disk remote filename qualityStr widthStr heightStr crop).trace = []
        ∧ (ResizeImage lib disk remote filename qualityStr widthStr heightStr crop).disk = disk) := by
  have key : ∀ s, (positiveDecimal s = true ∧ decimalValue s ≤ maxInt)
      ↔ ∃ v, Atoi s = some v ∧ 0 < v := by
    intro s
    rw [Atoi_pos_iff]
    simp [positiveDecimal, and_assoc]
  rw [key, key, key]
  rcases ResizeImage_cases lib disk remote filename qualityStr widthStr heightStr crop with
    ⟨h1, h2, h3, h4⟩ | ⟨q, w, h, hq, hq0, hw, hw0, hh, hh0, hrun⟩
  · exact ⟨⟨fun _ => h1, fun _ => h2⟩, fun _ => ⟨h3, h4⟩⟩
  · have hne : (ResizeImage lib disk remote filename qualityStr widthStr heightStr crop).response.StatusCode
        ≠ 400 := by
      rw [hrun]
      rcases serve_status lib disk remote filename q w h crop with h | h <;> rw [h] <;> decide
    refine ⟨⟨fun h => absurd h hne, fun hn => ?_⟩, fun h => absurd h hne⟩
    exact absurd ⟨⟨q, hq, hq0⟩, ⟨w, hw, hw0⟩, ⟨h, hh, hh0⟩⟩ hn

theorem bad_request_iff_invalid_parameter_witness :
    ((ResizeImage sampleLib ⟨[], []⟩ sampleRemote "dGVzdC5qcGc=" "0" "200" "100"
        "true").response.StatusCode = 400
      ∧ (ResizeImage sampleLib ⟨[], []⟩ sampleRemote "dGVzdC5qcGc=" "0" "200" "100" "true").trace
        = [])
    ∧ ((ResizeImage sampleLib ⟨[], []⟩ sampleRemote "dGVzdC5qcGc=" "80" "0" "100"
        "true").response.StatusCode = 400
      ∧ (ResizeImage sampleLib ⟨[], []⟩ sampleRemote "dGVzdC5qcGc=" "80" "0" "100" "true").trace
        = [])
    ∧ ((ResizeImage sampleLib ⟨[], []⟩ sampleRemote "dGVzdC5qcGc=" "80" "200" "0"
        "true").response.StatusCode = 400
      ∧ (ResizeImage sampleLib ⟨[], []⟩ sampleRemote "dGVzdC5qcGc=" "80" "200" "0" "true").trace
        = [])
    ∧ ((ResizeImage sampleLib ⟨[], []⟩ sampleRemote "dGVzdC5qcGc=" "80" "wide" "100"
        "true").response.StatusCode = 400
      ∧ (ResizeImage sampleLib ⟨[], []⟩ sampleRemote "dGVzdC5qcGc=" "80" "wide" "100" "true").trace
        = [])
    ∧ (ResizeImage sampleLib ⟨[], []⟩ sampleRemote "dGVzdC5qcGc=" "80" "200" "100"
        "true").response.StatusCode ≠ 400 := by
  have h1 := bad_request_iff_invalid_parameter sampleLib ⟨[], []⟩ sampleRemote "dGVzdC5qcGc=" "0"
    "200" "100" "true"
  have h2 := bad_request_iff_invalid_parameter sampleLib ⟨[], []⟩ sampleRemote "dGVzdC5qcGc=" "80"
    "0" "100" "true"
  have h3 := bad_request_iff_invalid_parameter sampleLib ⟨[], []⟩ sampleRemote "dGVzdC5qcGc=" "80"
    "200" "0" "true"
  have h4 := bad_request_iff_invalid_parameter sampleLib ⟨[], []⟩ sampleRemote "dGVzdC5qcGc=" "80"
    "wide" "100" "true"
  have h5 := bad_request_iff_invalid_parameter sampleLib ⟨[], []⟩ sampleRemote "dGVzdC5qcGc=" "80"
    "200" "100" "true"
  exact ⟨⟨h1.1.2 (by decide), (h1.2 (h1.1.2 (by decide))).1⟩,
    ⟨h2.1.2 (by decide), (h2.2 (h2.1.2 (by decide))).1⟩,
    ⟨h3.1.2 (by decide), (h3.2 (h3.1.2 (by decide))).1⟩,
    ⟨h4.1.2 (by decide), (h4.2 (h4.1.2 (by decide))).1⟩,
    fun h => h5.1.1 h (by decide)⟩

/-- C6, counterexample. The width `9223372036854775808` is a decimal integer
with a positive value, as are the quality `80` and the height `100`, yet the
request is answered with status 400: `strconv.Atoi` reports a range error. -/
theorem bad_request_for_decimal_beyond_int_range :
    (ResizeImage sampleLib ⟨[], []⟩ sampleRemote "dGVzdC5qcGc=" "80" "9223372036854775808" "100"
        "true").response.StatusCode = 400
      ∧ positiveDecimal "80" = true ∧ positiveDecimal "9223372036854775808" = true
      ∧ positiveDecimal "100" = true := by
  decide

/-- C9. For a request that passes validation and misses the cache, if the
remote fetch returns a status other than 200, `ResizeImage` answers with
status 500, leaves the cache directory unchanged and attempts no write. -/
theorem remote_failure_is_500_and_writes_nothing (lib : Lib) (disk : Disk) (remote : Remote)
    (filename qualityStr widthStr heightStr crop : String) (quality width height : Int)
    (StatusCode : Nat) (contentType : String) (body : Bytes)
    (hq : Atoi qualityStr = some quality) (hq0 : 0 < quality)
    (hw : Atoi widthStr = some width) (hw0 : 0 < width)
    (hh : Atoi heightStr = some height) (hh0 : 0 < height)
    (hmiss : disk.ReadFile (lib.Join cacheDir (cacheFileName filename width height quality crop))
      = none)
    (hget : remote (fullImagePath filename) = .response StatusCode contentType body)
    (hstatus : StatusCode ≠ 200) :
    (ResizeImage lib disk remote filename qualityStr widthStr heightStr crop).response.StatusCode
        = 500
      ∧ (ResizeImage lib disk remote filename qualityStr widthStr heightStr crop).disk = disk
      ∧ ∀ path ok, Event.WriteFile path ok
          ∉ (ResizeImage lib disk remote filename qualityStr widthStr heightStr crop).trace := by
  have hq1 : ¬ quality ≤ 0 := by omega
  have hw1 : ¬ width ≤ 0 := by omega
  have hh1 : ¬ height ≤ 0 := by omega
  simp [ResizeImage, hq, hw, hh, hq1, hw1, hh1, serve, hmiss, downloadAndDecodeImage, hget,
    hstatus, httpError]


theorem lookup_head (path : String) (data : Bytes) (files : List (String × Bytes)) :
    List.lookup path ((path, data) :: files) = some data := by
  simp [List.lookup]

/-- A successful `serve` leaves the artifact it answered with in the cache,
unless saving it failed. -/
theorem serve_200_cached (lib : Lib) (disk : Disk) (remote : Remote) (f : String) (q w h : Int)
    (crop : String)
    (h200 : (serve lib disk remote f q w h crop).response.StatusCode = 200)
    (hsaved : ∀ path, Event.WriteFile path false ∉ (serve lib disk remote f q w h crop).trace) :
    (serve lib disk remote f q w h crop).disk.ReadFile
        (lib.Join cacheDir (cacheFileName f w h q crop))
      = some (serve lib disk remote f q w h crop).response.Body := by
  unfold serve at h200 hsaved ⊢
  simp only at h200 hsaved ⊢
  split
  · rename_i data hread
    simp only [writeCachedImage, hread]
  · rename_i hread
    split
    · rename_i hd
      simp [hread, hd, httpError] at h200
    · rename_i img hd
      split
      · rename_i he
        simp [hread, hd, he, httpError] at h200
      · rename_i data he
        simp only [hread, hd, he] at hsaved
        by_cases hden : lib.Join cacheDir (cacheFileName f w h q crop) ∈ disk.denied
        · have := hsaved (lib.Join cacheDir (cacheFileName f w h q crop))
          simp [saveToDisk, hden] at this
        · simp [saveToDisk, hden, Disk.ReadFile, writeCachedImage, lookup_head]

theorem serve_hit (lib : Lib) (disk : Disk) (remote : Remote) (f : String) (q w h : Int)
    (crop : String) (data : Bytes)
    (hread : disk.ReadFile (lib.Join cacheDir (cacheFileName f w h q crop)) = some data) :
    serve lib disk remote f q w h crop
      = ⟨writeCachedImage data, disk, [.ReadFile (lib.Join cacheDir (cacheFileName f w h q crop))]⟩ := by
  simp [serve, hread]

/-- C5, amended. If a first `ResizeImage` request completes with status 200
and its cache write, when it made one, did not fail, then a second request with
the same parameters, on the disk the first one left and whatever the remote
store now holds, returns status 200 with the same body and fetches nothing. -/
theorem second_request_served_from_cache (lib : Lib) (disk : Disk) (remote remote2 : Remote)
    (filename qualityStr widthStr heightStr crop : String)
    (h200 : (ResizeImage lib disk remote filename qualityStr widthStr heightStr crop).response.StatusCode
      = 200)
    (hsaved : ∀ path, Event.WriteFile path false
      ∉ (ResizeImage lib disk remote filename qualityStr widthStr heightStr crop).trace) :
    (ResizeImage lib (ResizeImage lib disk remote filename qualityStr widthStr heightStr crop).disk
        remote2 filename qualityStr widthStr heightStr crop).response.StatusCode = 200
    ∧ (ResizeImage lib (ResizeImage lib disk remote filename qualityStr widthStr heightStr crop).disk
        remote2 filename qualityStr widthStr heightStr crop).response.Body
      = (ResizeImage lib disk remote filename qualityStr widthStr heightStr crop).response.Body
    ∧ ∀ url, Event.Get url ∉
        (ResizeImage lib (ResizeImage lib disk remote filename qualityStr widthStr heightStr crop).disk
          remote2 filename qualityStr widthStr heightStr crop).trace := by
  rcases ResizeImage_cases lib disk remote filename qualityStr widthStr heightStr crop with
    ⟨_, h2, _, _⟩ | ⟨q, w, h, hq, hq0, hw, hw0, hh, hh0, hrun⟩
  · rw [h2] at h200; exact absurd h200 (by decide)
  · rw [hrun] at h200 hsaved ⊢
    have hcached := serve_200_cached lib disk remote filename q w h crop h200 hsaved
    have hrun2 : ResizeImage lib (serve lib disk remote filename q w h crop).disk remote2 filename
        qualityStr widthStr heightStr crop
        = serve lib (serve lib disk remote filename q w h crop).disk remote2 filename q w h crop := by
      have hq1 : ¬ q ≤ 0 := by omega
      have hw1 : ¬ w ≤ 0 := by omega
      have hh1 : ¬ h ≤ 0 := by omega
      simp [ResizeImage, hq, hw, hh, hq1, hw1, hh1]
    rw [hrun2, serve_hit _ _ _ _ _ _ _ _ _ hcached]
    simp [writeCachedImage]

/-- C5, counterexample. On a disk where the cache file cannot be written, the
first request is answered with status 200 (the failed save is only logged);
the second request with the same parameters fetches the source again, and is
answered with status 500 once the remote store has lost it. -/
theorem failed_save_leads_to_second_fetch :
    (ResizeImage sampleLib ⟨[], ["./cache/dGVzdC5qcGc=_200x100_q80_croptrue.webp"]⟩ sampleRemote
        "dGVzdC5qcGc=" "80" "200" "100" "true").response.StatusCode = 200
    ∧ (ResizeImage sampleLib
        (ResizeImage sampleLib ⟨[], ["./cache/dGVzdC5qcGc=_200x100_q80_croptrue.webp"]⟩ sampleRemote
          "dGVzdC5qcGc=" "80" "200" "100" "true").disk
        goneRemote "dGVzdC5qcGc=" "80" "200" "100" "true").response.StatusCode = 500
    ∧ Event.Get "https://brotemedia.sfo3.cdn.digitaloceanspaces.com/winfo/uploads/test.jpg"
      ∈ (ResizeImage sampleLib
        (ResizeImage sampleLib ⟨[], ["./cache/dGVzdC5qcGc=_200x100_q80_croptrue.webp"]⟩ sampleRemote
          "dGVzdC5qcGc=" "80" "200" "100" "true").disk
        goneRemote "dGVzdC5qcGc=" "80" "200" "100" "true").trace := by
  decide

theorem second_request_served_from_cache_witness :
    (ResizeImage sampleLib
        (ResizeImage sampleLib ⟨[], []⟩ sampleRemote "dGVzdC5qcGc=" "80" "200" "100" "true").disk
        goneRemote "dGVzdC5qcGc=" "80" "200" "100" "true").response.StatusCode = 200
    ∧ (ResizeImage sampleLib
        (ResizeImage sampleLib ⟨[], []⟩ sampleRemote "dGVzdC5qcGc=" "80" "200" "100" "true").disk
        goneRemote "dGVzdC5qcGc=" "80" "200" "100" "true").response.Body
      = (ResizeImage sampleLib ⟨[], []⟩ sampleRemote "dGVzdC5qcGc=" "80" "200" "100"
          "true").response.Body
    ∧ ∀ url, Event.Get url ∉
        (ResizeImage sampleLib
          (ResizeImage sampleLib ⟨[], []⟩ sampleRemote "dGVzdC5qcGc=" "80" "200" "100" "true").disk
          goneRemote "dGVzdC5qcGc=" "80" "200" "100" "true").trace :=
  second_request_served_from_cache sampleLib ⟨[], []⟩ sampleRemote goneRemote "dGVzdC5qcGc=" "80"
    "200" "100" "true" (by decide)
    (by
      intro path
      have ht : (ResizeImage sampleLib ⟨[], []⟩ sampleRemote "dGVzdC5qcGc=" "80" "200" "100"
          "true").trace
          = [.ReadFile "./cache/dGVzdC5qcGc=_200x100_q80_croptrue.webp",
            .Get "https://brotemedia.sfo3.cdn.digitaloceanspaces.com/winfo/uploads/test.jpg",
            .WriteFile "./cache/dGVzdC5qcGc=_200x100_q80_croptrue.webp" true] := by decide
      rw [ht]
      simp)

theorem remote_failure_is_500_and_writes_nothing_witness :
    (ResizeImage sampleLib ⟨[], []⟩ goneRemote "dGVzdC5qcGc=" "80" "200" "100"
        "true").response.StatusCode = 500
      ∧ (ResizeImage sampleLib ⟨[], []⟩ goneRemote "dGVzdC5qcGc=" "80" "200" "100" "true").disk
        = ⟨[], []⟩
      ∧ ∀ path ok, Event.WriteFile path ok
          ∉ (ResizeImage sampleLib ⟨[], []⟩ goneRemote "dGVzdC5qcGc=" "80" "200" "100"
              "true").trace :=
  remote_failure_is_500_and_writes_nothing sampleLib ⟨[], []⟩ goneRemote "dGVzdC5qcGc=" "80" "200"
    "100" "true" 80 200 100 404 "text/plain" [] (by decide) (by decide) (by decide) (by decide)
    (by decide) (by decide) (by decide) rfl (by decide)

end Resizer
